import Mathlib

/-!
Verification of the Ames-housing regression-diagnostics pipeline
(`lab1/additional_excercise.ipynb`).

The notebook is embedded shallowly:
* a data table is a list of rows, a row an association list from column
  name to an optional cell value (`none` models pandas NaN);
* the cleaning steps (row filters, per-column `fillna` defaults, the
  `df.replace` recoding table) are pure per-column cell operations folded
  over the table, exactly in the order the notebook applies them;
* the sklearn column transforms (median imputation, min-max scaling,
  one-hot encoding with `drop="first"`, `handle_unknown="ignore"`) are
  modelled per column over exact rationals;
* the statsmodels calls are modelled by their documented/observed
  behaviour on the notebook's inputs: `sm.OLS(..., hasconst=False)` uses
  the design matrix exactly as given, and `het_breuschpagan` raises its
  constant-column precondition error when no column of `exog_het` is
  constant;
* the diagnostic runner (`display_test` plus the notebook's per-cell
  `try/except ... print(e)` pattern) is modelled with `Except`, Python
  exceptions being the `.error` branch.
-/

namespace Ames

/-- A scalar cell value of the table: a raw string category/code, an
integer code, or a general numeric (pandas float) value, modelled
exactly as a rational. -/
inductive Value where
  | str : String → Value
  | int : Int → Value
  | num : ℚ → Value
deriving DecidableEq, Repr

/-- A row: association list from column name to cell; `none` is a
missing value (NaN). -/
abbrev Row := List (String × Option Value)

/-- A table is an ordered list of rows. -/
abbrev Table := List Row

/-- First-match association-list lookup. -/
def alookup {α β : Type} [DecidableEq α] (k : α) : List (α × β) → Option β
  | [] => none
  | p :: l => if p.1 = k then some p.2 else alookup k l

/-- The cell of row `r` in column `c`; a column absent from the row and a
stored NaN both read as `none`. -/
def getCell (r : Row) (c : String) : Option Value :=
  Option.join (alookup c r)

/-- The row actually carries column `c` (the fixed schema of the data). -/
def hasCol (r : Row) (c : String) : Prop :=
  (alookup c r).isSome = true

/-- A per-column cell operation. -/
abbrev CellOp := Option Value → Option Value

/-- Apply a cell operation to one column of a row, leaving all other
columns untouched. -/
def mapCell (c : String) (f : CellOp) (r : Row) : Row :=
  r.map fun e => if e.1 = c then (e.1, f e.2) else e

/-- Apply a list of named per-column operations to a row in order
(the notebook's loop of per-column mutations). -/
def applyOps (ops : List (String × CellOp)) (r : Row) : Row :=
  ops.foldl (fun r p => mapCell p.1 p.2 r) r

/-- The combined effect of `applyOps ops` on a single cell of column `c`. -/
def opsFor (ops : List (String × CellOp)) (c : String) (x : Option Value) :
    Option Value :=
  ops.foldl (fun x p => if p.1 = c then p.2 x else x) x

/-- The `Series.fillna value` step on one cell: replace a missing entry by the
configured default, keep present values. -/
def fillCell (v : Value) : CellOp
  | none => some v
  | some w => some w

/-- The `df.replace` step on one cell, for a column with map `m`: a value present as a key of `m`
becomes its mapped value, any other value (including NaN) is kept. -/
def recodeCell (m : List (Value × Value)) : CellOp
  | none => none
  | some v => some ((alookup v m).getD v)

/-- The notebook's `default_values` table (cell 8; the duplicate
`SaleCondition` literal collapses to one dict entry with value
`"Normal"`). -/
def default_values : List (String × Value) := [
  ("Alley", .str "None"),
  ("BedroomAbvGr", .int 0),
  ("BsmtQual", .str "No"),
  ("BsmtCond", .str "No"),
  ("BsmtExposure", .str "No"),
  ("BsmtFinType1", .str "No"),
  ("BsmtFinType2", .str "No"),
  ("BsmtFullBath", .int 0),
  ("BsmtHalfBath", .int 0),
  ("BsmtUnfSF", .int 0),
  ("Condition1", .str "Norm"),
  ("Condition2", .str "Norm"),
  ("ExterCond", .str "TA"),
  ("ExterQual", .str "TA"),
  ("Fence", .str "No"),
  ("Functional", .str "Typ"),
  ("GarageType", .str "No"),
  ("GarageFinish", .str "No"),
  ("GarageQual", .str "No"),
  ("GarageCond", .str "No"),
  ("GarageArea", .int 0),
  ("GarageCars", .int 0),
  ("HalfBath", .int 0),
  ("HeatingQC", .str "Ta"),
  ("KitchenAbvGr", .int 0),
  ("KitchenQual", .str "TA"),
  ("LotFrontage", .int 0),
  ("LotShape", .str "Reg"),
  ("MasVnrType", .str "None"),
  ("MasVnrArea", .int 0),
  ("MiscFeature", .str "No"),
  ("MiscVal", .int 0),
  ("OpenPorchSF", .int 0),
  ("PavedDrive", .str "N"),
  ("PoolQC", .str "No"),
  ("PoolArea", .int 0),
  ("SaleCondition", .str "Normal"),
  ("ScreenPorch", .int 0),
  ("TotRmsAbvGrd", .int 0),
  ("Utilities", .str "AllPub"),
  ("WoodDeckSF", .int 0),
  ("CentralAir", .int 0),
  ("EnclosedPorch", .int 0),
  ("FireplaceQu", .int 0),
  ("Fireplaces", .int 0)]

/-- The notebook's `df.replace` recoding table (cell 10): per column, a
map from raw code to normalized label or ordinal integer. -/
def replace_table : List (String × List (Value × Value)) := [
  ("MSSubClass", [
    (.int 20, .str "SC20"), (.int 30, .str "SC30"), (.int 40, .str "SC40"),
    (.int 45, .str "SC45"), (.int 50, .str "SC50"), (.int 60, .str "SC60"),
    (.int 70, .str "SC70"), (.int 75, .str "SC75"), (.int 80, .str "SC80"),
    (.int 85, .str "SC85"), (.int 90, .str "SC90"), (.int 120, .str "SC120"),
    (.int 150, .str "SC150"), (.int 160, .str "SC160"),
    (.int 180, .str "SC180"), (.int 190, .str "SC190")]),
  ("MoSold", [
    (.int 1, .str "Jan"), (.int 2, .str "Feb"), (.int 3, .str "Mar"),
    (.int 4, .str "Apr"), (.int 5, .str "May"), (.int 6, .str "Jun"),
    (.int 7, .str "Jul"), (.int 8, .str "Aug"), (.int 9, .str "Sep"),
    (.int 10, .str "Oct"), (.int 11, .str "Nov"), (.int 12, .str "Dec")]),
  ("Alley", [(.str "None", .int 0), (.str "Grvl", .int 1), (.str "Pave", .int 2)]),
  ("BsmtCond", [(.str "No", .int 0), (.str "Po", .int 1), (.str "Fa", .int 2),
    (.str "TA", .int 3), (.str "Gd", .int 4), (.str "Ex", .int 5)]),
  ("BsmtExposure", [(.str "No", .int 0), (.str "Mn", .int 1),
    (.str "Av", .int 2), (.str "Gd", .int 3)]),
  ("BsmtFinType1", [(.str "No", .int 0), (.str "Unf", .int 1),
    (.str "LwQ", .int 2), (.str "Rec", .int 3), (.str "BLQ", .int 4),
    (.str "ALQ", .int 5), (.str "GLQ", .int 6)]),
  ("BsmtFinType2", [(.str "No", .int 0), (.str "Unf", .int 1),
    (.str "LwQ", .int 2), (.str "Rec", .int 3), (.str "BLQ", .int 4),
    (.str "ALQ", .int 5), (.str "GLQ", .int 6)]),
  ("BsmtQual", [(.str "No", .int 0), (.str "Po", .int 1), (.str "Fa", .int 2),
    (.str "TA", .int 3), (.str "Gd", .int 4), (.str "Ex", .int 5)]),
  ("ExterCond", [(.str "Po", .int 1), (.str "Fa", .int 2), (.str "TA", .int 3),
    (.str "Gd", .int 4), (.str "Ex", .int 5)]),
  ("ExterQual", [(.str "Po", .int 1), (.str "Fa", .int 2), (.str "TA", .int 3),
    (.str "Gd", .int 4), (.str "Ex", .int 5)]),
  ("FireplaceQu", [(.str "No", .int 0), (.str "Po", .int 1), (.str "Fa", .int 2),
    (.str "TA", .int 3), (.str "Gd", .int 4), (.str "Ex", .int 5)]),
  ("Functional", [(.str "Sal", .int 1), (.str "Sev", .int 2),
    (.str "Maj2", .int 3), (.str "Maj1", .int 4), (.str "Mod", .int 5),
    (.str "Min2", .int 6), (.str "Min1", .int 7), (.str "Typ", .int 8)]),
  ("GarageCond", [(.str "No", .int 0), (.str "Po", .int 1), (.str "Fa", .int 2),
    (.str "TA", .int 3), (.str "Gd", .int 4), (.str "Ex", .int 5)]),
  ("GarageQual", [(.str "No", .int 0), (.str "Po", .int 1), (.str "Fa", .int 2),
    (.str "TA", .int 3), (.str "Gd", .int 4), (.str "Ex", .int 5)]),
  ("HeatingQC", [(.str "Po", .int 1), (.str "Fa", .int 2), (.str "TA", .int 3),
    (.str "Gd", .int 4), (.str "Ex", .int 5)]),
  ("KitchenQual", [(.str "Po", .int 1), (.str "Fa", .int 2), (.str "TA", .int 3),
    (.str "Gd", .int 4), (.str "Ex", .int 5)]),
  ("LandSlope", [(.str "Sev", .int 1), (.str "Mod", .int 2), (.str "Gtl", .int 3)]),
  ("LotShape", [(.str "IR3", .int 1), (.str "IR2", .int 2), (.str "IR1", .int 3),
    (.str "Reg", .int 4)]),
  ("PavedDrive", [(.str "N", .int 0), (.str "P", .int 1), (.str "Y", .int 2)]),
  ("PoolQC", [(.str "No", .int 0), (.str "Fa", .int 1), (.str "TA", .int 2),
    (.str "Gd", .int 3), (.str "Ex", .int 4)]),
  ("Street", [(.str "Grvl", .int 0), (.str "Pave", .int 1)]),
  ("Utilities", [(.str "ELO", .int 1), (.str "NoSeWa", .int 2),
    (.str "NoSewr", .int 3), (.str "AllPub", .int 4)])]

/-- The `replace_na` loop (cell 9) as named per-column cell operations. -/
def fillOps : List (String × CellOp) :=
  default_values.map fun p => (p.1, fillCell p.2)

/-- The `df.replace` call (cell 10) as named per-column cell operations. -/
def recodeOps : List (String × CellOp) :=
  replace_table.map fun p => (p.1, recodeCell p.2)

/-- All cleaning cell operations in source order: defaults first, then
recodings. -/
def cleanOps : List (String × CellOp) := fillOps ++ recodeOps

/-- The filter `~df["Neighborhood"].isin(["GrnHill", "Landmrk"])` on one cell: a NaN
is not in the excluded set, so it is kept. -/
def neighborhoodKeep (x : Option Value) : Bool :=
  match x with
  | some v => if v = Value.str "GrnHill" ∨ v = Value.str "Landmrk" then false else true
  | none => true

/-- The filter `df["GrLivArea"] < 4000` on one numeric cell: a NaN comparison is
false, so such a row is dropped. -/
def grLivAreaKeep (x : Option Value) : Bool :=
  match x with
  | some (Value.int n) => decide (n < 4000)
  | some (Value.num q) => decide (q < 4000)
  | _ => false

/-- The conjunction of the two row filters of cell 5. -/
def keepRow (r : Row) : Bool :=
  neighborhoodKeep (getCell r "Neighborhood") &&
    grLivAreaKeep (getCell r "GrLivArea")

/-- The row-filtering stage of cell 5. -/
def filterRows (t : Table) : Table :=
  t.filter keepRow

/-- Cleaning of one surviving row: the default fills of cell 9 followed
by the recodings of cell 10. -/
def cleanRow (r : Row) : Row :=
  applyOps cleanOps r

/-- The missing-value replacement step alone (cell 9), applied to every
row of a table. -/
def fillStep (t : Table) : Table :=
  t.map (applyOps fillOps)

/-- The cleaning stage the claims quantify over: the row filters of
cell 5, then per-column default fills, then per-column recodings. -/
def cleanCore (t : Table) : Table :=
  (filterRows t).map cleanRow

/-! ### Feature transformer (cell 14): one column at a time -/

/-- Lexicographic code-point comparison of character lists. -/
def charListLe : List Char → List Char → Bool
  | [], _ => true
  | _ :: _, [] => false
  | a :: as, b :: bs =>
    if a < b then true else if b < a then false else charListLe as bs

/-- String comparison as numpy sorts (lexicographic by code point). -/
def strLeB (a b : String) : Bool := charListLe a.data b.data

/-- The `OneHotEncoder.fit` result on one categorical column: the sorted distinct
category values observed at fit time (numpy `unique`). -/
def fitCategories (xs : List String) : List String :=
  (xs.dedup).insertionSort (fun a b => strLeB a b = true)

/-- Transform one categorical value with `drop="first"` and
`handle_unknown="ignore"`: one 0/1 indicator per non-reference category,
the reference being the first fitted category. -/
def encodeCat (cats : List String) (v : String) : List ℚ :=
  (cats.drop 1).map fun c => if v = c then 1 else 0

/-- The minimum of a nonempty rational list (`data_min_` of the fitted
scaler); 0 on an empty column. -/
def minQ : List ℚ → ℚ
  | [] => 0
  | h :: t => t.foldl min h

/-- The maximum of a nonempty rational list (`data_max_`). -/
def maxQ : List ℚ → ℚ
  | [] => 0
  | h :: t => t.foldl max h

/-- The `numpy.median` of a column (the median imputation statistic):
middle element of the sorted data, or the mean of the two middle
elements; 0 on an empty column. -/
def medianQ (xs : List ℚ) : ℚ :=
  let s := xs.insertionSort (fun a b => a ≤ b)
  if s.length = 0 then 0
  else if s.length % 2 = 1 then s.getD (s.length / 2) 0
  else (s.getD (s.length / 2 - 1) 0 + s.getD (s.length / 2) 0) / 2

/-- The `SimpleImputer(strategy="median")` transform on one cell: a missing value
becomes the median of the non-missing fitted data. -/
def imputeCell (fitted : List (Option ℚ)) (x : Option ℚ) : ℚ :=
  x.getD (medianQ (fitted.filterMap id))

/-- The `MinMaxScaler.transform` of one value: `(x - data_min) / data_range`,
with a zero range replaced by 1 (sklearn `_handle_zeros_in_scale`). -/
def minMaxScale (fitted : List ℚ) (x : ℚ) : ℚ :=
  let lo := minQ fitted
  let hi := maxQ fitted
  (x - lo) / (if hi - lo = 0 then 1 else hi - lo)

/-- The notebook's numeric pipeline (median imputation then min-max
scaling), fitted and applied to the same column, as in
`column_transformer.fit(df, y)` followed by `transform(df)`. -/
def numericTransform (col : List (Option ℚ)) : List ℚ :=
  let imputed := col.map (imputeCell col)
  imputed.map (minMaxScale imputed)

/-! ### Regression fitter and Breusch-Pagan precondition (cells 18, 29) -/

/-- The part of a fitted statsmodels OLS model the diagnostics read. -/
structure OLSModel where
  endog : List ℚ
  exog : List (List ℚ)
deriving Repr

/-- The `sm.OLS(y, X, hasconst=...)` fit: statsmodels uses the given design
matrix exactly as passed; no intercept column is ever added by the
fitter (`hasconst` only declares whether one is already present, for
degrees-of-freedom accounting). -/
def olsFit (y : List ℚ) (X : List (List ℚ)) (hasconst : Bool) : OLSModel :=
  { endog := y, exog := X }

/-- A column of a row-major matrix. -/
def matColumn (X : List (List ℚ)) (j : ℕ) : List ℚ :=
  X.map fun r => r.getD j 0

/-- A list whose elements are all equal (`numpy.ptp == 0` on a column). -/
def isConstList (l : List ℚ) : Bool :=
  match l with
  | [] => true
  | h :: t => t.all fun x => x = h

/-- The check `np.any(np.ptp(x, axis=0) == 0.0)`: some column of the matrix is
constant. -/
def hasConstColumn (X : List (List ℚ)) : Bool :=
  (List.range ((X.headD []).length)).any fun j => isConstList (matColumn X j)

/-- The precondition error message raised by
`statsmodels.stats.diagnostic.het_breuschpagan`. -/
def bpErrorMessage : String :=
  "The Breusch-Pagan test requires exog to have at least two columns where one is a constant."

/-- The call `het_breuschpagan(resid, exog_het)`: raises its precondition error
when no column of `exog_het` is constant; the numeric statistics of the
success branch are outside the claims and modelled as `Unit`. -/
def het_breuschpagan (resid : List ℚ) (exog_het : List (List ℚ)) :
    Except String Unit :=
  if hasConstColumn exog_het then .ok () else .error bpErrorMessage

/-! ### Diagnostic test runner (cells 17, 21, 24, 26, 29) -/

/-- The four-space `indent` of cell 17. -/
def indent : String := "    "

/-- One formatted statistic line of a block, from a (name, rendered
value) pair. -/
def statLine (p : String × String) : String :=
  indent ++ p.1 ++ ": " ++ p.2 ++ "\n"

/-- Concatenation of a list of already-formatted lines. -/
def joinAll : List String → String
  | [] => ""
  | s :: l => s ++ joinAll l

/-- The `display_test` function of cell 17.  The test call `test(model, ...)` may
raise (the `.error` branch, propagated out of `display_test`); on
success the block text is built by repeated appending over
`zip(stats_names, score)` and printed, `print` appending a final
newline.  Statistic values arrive already rendered as strings. -/
def display_test (title : String) (statsNames : List String)
    (testResult : Except String (List String)) : Except String String :=
  match testResult with
  | .error e => .error e
  | .ok score =>
    .ok (((statsNames.zip score).foldl
        (fun text p => text ++ indent ++ p.1 ++ ": " ++ p.2 ++ "\n")
        (title ++ " test:\n")) ++ "\n")

/-- The notebook's guarded invocation pattern
`try: display_test(...) except Exception as e: print(e)`:
a failing test contributes its error message (plus `print`'s newline)
to standard output instead of a statistics block. -/
def tryDisplay (title : String) (statsNames : List String)
    (testResult : Except String (List String)) : String :=
  match display_test title statsNames testResult with
  | .ok out => out
  | .error e => e ++ "\n"

/-- The stat-name lists the notebook declares for the four tests. -/
def rainbowNames : List String := ["score", "p-value"]

/-- Stat names of the Harvey-Collier invocation. -/
def harveyNames : List String := ["score", "p-value"]

/-- Stat names of the Jarque-Bera invocation. -/
def jarqueBeraNames : List String := ["score", "p-value", "skew", "kurtosis"]

/-- Stat names of the Breusch-Pagan invocation. -/
def breuschPaganNames : List String :=
  ["LM score", "LM p-value", "F score", "F p-value"]

/-- The diagnostics section of the notebook as run top to bottom,
parametrized by the outcome of each statistical test call: the Rainbow
invocation (cell 21) is not wrapped in `try/except`, so a Rainbow
failure escapes the run; the Harvey-Collier, Jarque-Bera and
Breusch-Pagan invocations (cells 24, 26, 29) are each guarded.  The
result is the standard output of the whole section. -/
def runDiagnostics (rainbow harvey jarqueBera breuschPagan :
    Except String (List String)) : Except String String :=
  match display_test "Rainbow" rainbowNames rainbow with
  | .error e => .error e
  | .ok out =>
    .ok (out ++ tryDisplay "Harvey Collier" harveyNames harvey
            ++ tryDisplay "Jarque-Bera" jarqueBeraNames jarqueBera
            ++ tryDisplay "Breusch-Pagan" breuschPaganNames breuschPagan)

/-! ### Association-list and per-column-operation lemmas -/

theorem alookup_map_snd {α β γ : Type} [DecidableEq α] (g : α → β → γ)
    (l : List (α × β)) (k : α) :
    alookup k (l.map fun e => (e.1, g e.1 e.2)) = (alookup k l).map (g k) := by
  induction l with
  | nil => rfl
  | cons p l ih =>
    simp only [List.map_cons, alookup]
    by_cases h : p.1 = k
    · rw [if_pos h, if_pos h, h, Option.map_some']
    · rw [if_neg h, if_neg h, ih]

theorem alookup_mem {α β : Type} [DecidableEq α] {l : List (α × β)}
    {k : α} {b : β} (h : alookup k l = some b) : (k, b) ∈ l := by
  induction l with
  | nil => exact absurd h (by simp [alookup])
  | cons p l ih =>
    rw [alookup] at h
    by_cases hp : p.1 = k
    · rw [if_pos hp] at h
      have : p = (k, b) := by
        cases p
        simp only [Option.some.injEq] at h
        simp_all
      rw [← this]
      exact List.mem_cons_self _ _
    · rw [if_neg hp] at h
      exact List.mem_cons_of_mem _ (ih h)

theorem mem_alookup_of_nodup {α β : Type} [DecidableEq α] {l : List (α × β)}
    (hnd : (l.map Prod.fst).Nodup) {k : α} {b : β} (h : (k, b) ∈ l) :
    alookup k l = some b := by
  induction l with
  | nil => exact absurd h (by simp)
  | cons p l ih =>
    rw [List.map_cons, List.nodup_cons] at hnd
    rcases List.mem_cons.mp h with heq | hmem
    · rw [alookup, if_pos (by rw [← heq]), ← heq]
    · have hk : p.1 ≠ k := by
        intro hpk
        exact hnd.1 (hpk ▸ List.mem_map.mpr ⟨(k, b), hmem, rfl⟩)
      rw [alookup, if_neg hk]
      exact ih hnd.2 hmem

theorem opsFor_cons (p : String × CellOp) (ops : List (String × CellOp))
    (c : String) (x : Option Value) :
    opsFor (p :: ops) c x = opsFor ops c (if p.1 = c then p.2 x else x) := rfl

theorem opsFor_append (a b : List (String × CellOp)) (c : String)
    (x : Option Value) :
    opsFor (a ++ b) c x = opsFor b c (opsFor a c x) := by
  simp [opsFor, List.foldl_append]

theorem opsFor_not_mem {ops : List (String × CellOp)} {c : String}
    (h : c ∉ ops.map Prod.fst) (x : Option Value) : opsFor ops c x = x := by
  induction ops generalizing x with
  | nil => rfl
  | cons p ops ih =>
    rw [List.map_cons] at h
    simp only [List.mem_cons, not_or] at h
    rw [opsFor_cons, if_neg (fun hpc => h.1 hpc.symm)]
    exact ih (by simpa using h.2) x

theorem opsFor_eq_alookup {ops : List (String × CellOp)}
    (h : (ops.map Prod.fst).Nodup) (c : String) (x : Option Value) :
    opsFor ops c x =
      match alookup c ops with
      | some f => f x
      | none => x := by
  induction ops generalizing x with
  | nil => rfl
  | cons p ops ih =>
    rw [List.map_cons, List.nodup_cons] at h
    rw [opsFor_cons, alookup]
    by_cases hc : p.1 = c
    · rw [if_pos hc, if_pos hc, ih h.2]
      rw [← hc]
      have : alookup p.1 ops = none := by
        cases ha : alookup p.1 ops with
        | none => rfl
        | some f =>
          exact absurd (List.mem_map.mpr ⟨(p.1, f), alookup_mem ha, rfl⟩) h.1
      rw [this]
    · rw [if_neg hc, if_neg hc, ih h.2]

theorem applyOps_eq_map (ops : List (String × CellOp)) (r : Row) :
    applyOps ops r = r.map fun e => (e.1, opsFor ops e.1 e.2) := by
  induction ops generalizing r with
  | nil =>
    show r = r.map fun e => (e.1, e.2)
    simp
  | cons p ops ih =>
    show applyOps ops (mapCell p.1 p.2 r) = _
    rw [ih, mapCell, List.map_map]
    refine congrArg (fun f => List.map f r) (funext fun e => ?_)
    simp only [Function.comp_apply, opsFor_cons]
    by_cases h : e.1 = p.1
    · rw [if_pos h, if_pos h.symm]
    · rw [if_neg h, if_neg (fun hh => h hh.symm)]

theorem alookup_applyOps (ops : List (String × CellOp)) (r : Row)
    (c : String) :
    alookup c (applyOps ops r) = (alookup c r).map (opsFor ops c) := by
  rw [applyOps_eq_map, alookup_map_snd (fun c x => opsFor ops c x)]

theorem getCell_applyOps (ops : List (String × CellOp)) (r : Row)
    (c : String) :
    getCell (applyOps ops r) c =
      match alookup c r with
      | some x => opsFor ops c x
      | none => none := by
  rw [getCell, alookup_applyOps]
  cases alookup c r <;> rfl

theorem getCell_applyOps_not_mem {ops : List (String × CellOp)} {c : String}
    (h : c ∉ ops.map Prod.fst) (r : Row) :
    getCell (applyOps ops r) c = getCell r c := by
  rw [getCell_applyOps, getCell]
  cases alookup c r with
  | none => rfl
  | some x => exact opsFor_not_mem h x

theorem hasCol_applyOps (ops : List (String × CellOp)) (r : Row)
    (c : String) : hasCol (applyOps ops r) c ↔ hasCol r c := by
  rw [hasCol, hasCol, alookup_applyOps]
  cases alookup c r <;> simp

/-! ### Cell-operation algebra -/

theorem fillCell_fillCell (v : Value) (x : Option Value) :
    fillCell v (fillCell v x) = fillCell v x := by
  cases x <;> rfl

theorem fillCell_isSome (v : Value) (x : Option Value) :
    (fillCell v x).isSome := by
  cases x <;> rfl

theorem fillCell_of_isSome (v : Value) {x : Option Value} (h : x.isSome) :
    fillCell v x = x := by
  cases x
  · simp at h
  · rfl

theorem recodeCell_isSome (m : List (Value × Value)) {x : Option Value}
    (h : x.isSome) : (recodeCell m x).isSome := by
  cases x
  · simp at h
  · rfl

theorem recodeCell_idem (m : List (Value × Value))
    (hm : ∀ q ∈ m, alookup q.2 m = none) (x : Option Value) :
    recodeCell m (recodeCell m x) = recodeCell m x := by
  cases x with
  | none => rfl
  | some v =>
    show recodeCell m (some ((alookup v m).getD v)) = _
    cases h : alookup v m with
    | none => simp [recodeCell, h]
    | some w =>
      have hw : alookup w m = none := hm (v, w) (alookup_mem h)
      simp [recodeCell, h, hw]

/-! ### Concrete facts about the notebook's configuration tables -/

theorem default_keys_nodup : (default_values.map Prod.fst).Nodup := by decide

theorem replace_keys_nodup : (replace_table.map Prod.fst).Nodup := by decide

/-- In every recoding map of the notebook, no mapped value is itself a
key of the same map (ordinal targets are integers while keys are
strings, and vice versa). -/
theorem replace_values_not_keys :
    ∀ p ∈ replace_table, ∀ q ∈ p.2, alookup q.2 p.2 = none := by decide

theorem fillOps_keys : fillOps.map Prod.fst = default_values.map Prod.fst := by
  rw [fillOps, List.map_map]
  rfl

theorem recodeOps_keys :
    recodeOps.map Prod.fst = replace_table.map Prod.fst := by
  rw [recodeOps, List.map_map]
  rfl

theorem alookup_fillOps (c : String) :
    alookup c fillOps = (alookup c default_values).map (fun v => fillCell v) :=
  alookup_map_snd (fun _ v => fillCell v) default_values c

theorem alookup_recodeOps (c : String) :
    alookup c recodeOps =
      (alookup c replace_table).map (fun m => recodeCell m) :=
  alookup_map_snd (fun _ m => recodeCell m) replace_table c

theorem opsFor_fillOps_some {c : String} {v : Value}
    (h : alookup c default_values = some v) (x : Option Value) :
    opsFor fillOps c x = fillCell v x := by
  rw [opsFor_eq_alookup (fillOps_keys ▸ default_keys_nodup),
    alookup_fillOps, h, Option.map_some']

theorem opsFor_fillOps_none {c : String}
    (h : alookup c default_values = none) (x : Option Value) :
    opsFor fillOps c x = x := by
  rw [opsFor_eq_alookup (fillOps_keys ▸ default_keys_nodup),
    alookup_fillOps, h, Option.map_none']

theorem opsFor_recodeOps_some {c : String} {m : List (Value × Value)}
    (h : alookup c replace_table = some m) (x : Option Value) :
    opsFor recodeOps c x = recodeCell m x := by
  rw [opsFor_eq_alookup (recodeOps_keys ▸ replace_keys_nodup),
    alookup_recodeOps, h, Option.map_some']

theorem opsFor_recodeOps_none {c : String}
    (h : alookup c replace_table = none) (x : Option Value) :
    opsFor recodeOps c x = x := by
  rw [opsFor_eq_alookup (recodeOps_keys ▸ replace_keys_nodup),
    alookup_recodeOps, h, Option.map_none']

theorem opsFor_cleanOps_split (c : String) (x : Option Value) :
    opsFor cleanOps c x = opsFor recodeOps c (opsFor fillOps c x) :=
  opsFor_append fillOps recodeOps c x

/-- The combined per-cell cleaning operation is idempotent on every
cell: filling leaves already-present values alone, and every recoded
value falls outside its own map's key set. -/
theorem cellOp_idem (c : String) (x : Option Value) :
    opsFor cleanOps c (opsFor cleanOps c x) = opsFor cleanOps c x := by
  rw [opsFor_cleanOps_split, opsFor_cleanOps_split]
  cases hf : alookup c default_values with
  | none =>
    simp only [opsFor_fillOps_none hf]
    cases hr : alookup c replace_table with
    | none => simp only [opsFor_recodeOps_none hr]
    | some m =>
      simp only [opsFor_recodeOps_some hr]
      exact recodeCell_idem m (replace_values_not_keys _ (alookup_mem hr)) x
  | some v =>
    simp only [opsFor_fillOps_some hf]
    cases hr : alookup c replace_table with
    | none =>
      simp only [opsFor_recodeOps_none hr]
      exact fillCell_fillCell v x
    | some m =>
      simp only [opsFor_recodeOps_some hr]
      rw [fillCell_of_isSome v (recodeCell_isSome m (fillCell_isSome v x))]
      exact recodeCell_idem m (replace_values_not_keys _ (alookup_mem hr)) _

theorem cleanRow_idem (r : Row) : cleanRow (cleanRow r) = cleanRow r := by
  rw [cleanRow, cleanRow, applyOps_eq_map, applyOps_eq_map, List.map_map]
  refine congrArg (fun f => List.map f r) (funext fun e => ?_)
  simp only [Function.comp_apply, cellOp_idem]

theorem neighborhood_fixed (r : Row) :
    getCell (cleanRow r) "Neighborhood" = getCell r "Neighborhood" :=
  getCell_applyOps_not_mem (by decide) r

theorem grlivarea_fixed (r : Row) :
    getCell (cleanRow r) "GrLivArea" = getCell r "GrLivArea" :=
  getCell_applyOps_not_mem (by decide) r

theorem keepRow_cleanRow (r : Row) : keepRow (cleanRow r) = keepRow r := by
  rw [keepRow, keepRow, neighborhood_fixed, grlivarea_fixed]

/-! ### Claims about the cleaning stage -/

/-- C5: every row remaining after the cleaning stage has a Neighborhood
value outside the excluded categories `"GrnHill"` and `"Landmrk"`, and a
GrLivArea value that does not exceed 4000 (the code keeps strictly
smaller values only). -/
theorem clean_rows_satisfy_filters (t : Table) (r : Row)
    (h : r ∈ cleanCore t) :
    (∀ v : Value, getCell r "Neighborhood" = some v →
      v ≠ Value.str "GrnHill" ∧ v ≠ Value.str "Landmrk") ∧
    (∀ n : ℤ, getCell r "GrLivArea" = some (Value.int n) → n ≤ 4000) ∧
    (∀ q : ℚ, getCell r "GrLivArea" = some (Value.num q) → q ≤ 4000) := by
  obtain ⟨r₀, hr₀, rfl⟩ := List.mem_map.mp h
  have hk : keepRow r₀ = true := (List.mem_filter.mp hr₀).2
  rw [keepRow, Bool.and_eq_true] at hk
  obtain ⟨hn, hg⟩ := hk
  refine ⟨?_, ?_, ?_⟩
  · intro v hv
    rw [neighborhood_fixed] at hv
    rw [hv] at hn
    by_cases hcase : v = Value.str "GrnHill" ∨ v = Value.str "Landmrk"
    · simp only [neighborhoodKeep, if_pos hcase] at hn
      exact absurd hn (by simp)
    · exact ⟨fun h1 => hcase (Or.inl h1), fun h2 => hcase (Or.inr h2)⟩
  · intro n hv
    rw [grlivarea_fixed] at hv
    rw [hv] at hg
    simp only [grLivAreaKeep, decide_eq_true_eq] at hg
    exact hg.le
  · intro q hv
    rw [grlivarea_fixed] at hv
    rw [hv] at hg
    simp only [grLivAreaKeep, decide_eq_true_eq] at hg
    exact hg.le

set_option maxRecDepth 4000 in
/-- Witness for C5 at a concrete one-row table. -/
theorem clean_rows_satisfy_filters_witness :
    (Value.str "NAmes" ≠ Value.str "GrnHill" ∧
      Value.str "NAmes" ≠ Value.str "Landmrk") ∧ (1500 : ℤ) ≤ 4000 := by
  have h := clean_rows_satisfy_filters
    [[("Neighborhood", some (Value.str "NAmes")),
      ("GrLivArea", some (Value.int 1500))]]
    [("Neighborhood", some (Value.str "NAmes")),
      ("GrLivArea", some (Value.int 1500))]
    (by decide)
  exact ⟨h.1 (Value.str "NAmes") (by decide), h.2.1 1500 (by decide)⟩

/-- C6: after the missing-value replacement step, a column named in the
default-value table (and present in the row) holds no missing value. -/
theorem fill_step_no_missing (t : Table) (r : Row) (c : String) (v : Value)
    (hcv : (c, v) ∈ default_values) (hr : r ∈ fillStep t)
    (hc : hasCol r c) : getCell r c ≠ none := by
  obtain ⟨r₀, _, rfl⟩ := List.mem_map.mp hr
  have hl : alookup c default_values = some v :=
    mem_alookup_of_nodup default_keys_nodup hcv
  rw [getCell_applyOps]
  rw [hasCol_applyOps, hasCol] at hc
  cases hx : alookup c r₀ with
  | none => rw [hx] at hc; simp at hc
  | some x =>
    show opsFor fillOps c x ≠ none
    rw [opsFor_fillOps_some hl]
    cases x <;> simp [fillCell]

/-- Witness for C6: a row with a missing Alley cell is filled. -/
theorem fill_step_no_missing_witness :
    getCell (applyOps fillOps [("Alley", none)]) "Alley" ≠ none :=
  fill_step_no_missing [[("Alley", none)]] (applyOps fillOps [("Alley", none)])
    "Alley" (Value.str "None") (by decide) (by decide)
    (by unfold hasCol; decide)

/-- C7: the recoding step (`df.replace` over the whole recoding table)
acts on a column having a mapping exactly by replacing values that are
keys of that mapping with their mapped value and leaving every other
value unchanged. -/
theorem recode_replaces_keys_only (r : Row) (c : String)
    (m : List (Value × Value)) (hm : (c, m) ∈ replace_table) :
    (∀ v w : Value, getCell r c = some v → alookup v m = some w →
      getCell (applyOps recodeOps r) c = some w) ∧
    (∀ v : Value, getCell r c = some v → alookup v m = none →
      getCell (applyOps recodeOps r) c = some v) := by
  have hl : alookup c replace_table = some m :=
    mem_alookup_of_nodup replace_keys_nodup hm
  constructor
  · intro v w hv hvm
    have hx : alookup c r = some (some v) := by
      rw [getCell] at hv
      exact Option.join_eq_some.mp hv
    rw [getCell_applyOps, hx]
    show opsFor recodeOps c (some v) = some w
    rw [opsFor_recodeOps_some hl]
    simp [recodeCell, hvm]
  · intro v hv hvm
    have hx : alookup c r = some (some v) := by
      rw [getCell] at hv
      exact Option.join_eq_some.mp hv
    rw [getCell_applyOps, hx]
    show opsFor recodeOps c (some v) = some v
    rw [opsFor_recodeOps_some hl]
    simp [recodeCell, hvm]

/-- Witness for C7: an `"Grvl"` Alley cell is recoded to the ordinal 1. -/
theorem recode_replaces_keys_only_witness :
    getCell (applyOps recodeOps [("Alley", some (Value.str "Grvl"))])
      "Alley" = some (Value.int 1) :=
  (recode_replaces_keys_only [("Alley", some (Value.str "Grvl"))] "Alley"
      [(Value.str "None", Value.int 0), (Value.str "Grvl", Value.int 1),
        (Value.str "Pave", Value.int 2)]
      (by decide)).1
    (Value.str "Grvl") (Value.int 1) (by decide) (by decide)

/-- C8: re-running the cleaner (row filters, per-column default fills,
per-column recodings) on its own output returns that output unchanged:
already-defaulted cells are left alone by a second fill, recoded values
are not keys of their own recoding maps, and the filter columns are
untouched by fills and recodings. -/
theorem cleaner_idempotent (t : Table) :
    cleanCore (cleanCore t) = cleanCore t := by
  have h1 : filterRows ((filterRows t).map cleanRow) =
      (filterRows t).map cleanRow := by
    rw [filterRows]
    refine List.filter_eq_self.mpr fun r hr => ?_
    obtain ⟨r₀, hr₀, rfl⟩ := List.mem_map.mp hr
    rw [keepRow_cleanRow]
    exact (List.mem_filter.mp hr₀).2
  have h2 : ∀ l : Table, (l.map cleanRow).map cleanRow = l.map cleanRow := by
    intro l
    induction l with
    | nil => rfl
    | cons r l ih => simp only [List.map_cons, cleanRow_idem, ih]
  show (filterRows ((filterRows t).map cleanRow)).map cleanRow = _
  rw [h1, h2]
  rfl

/-! ### One-hot encoder lemmas and claim -/

theorem indicator_zero_of_not_mem (v : String) (l : List String)
    (h : v ∉ l) :
    (l.map fun c => if v = c then (1 : ℚ) else 0) =
      List.replicate l.length 0 := by
  induction l with
  | nil => rfl
  | cons c l ih =>
    simp only [List.mem_cons, not_or] at h
    rw [List.map_cons, if_neg h.1, List.length_cons, List.replicate_succ,
      ih h.2]

theorem indicator_count_le_one (v : String) (l : List String)
    (h : l.Nodup) :
    ((l.map fun c => if v = c then (1 : ℚ) else 0).count 1) ≤ 1 := by
  induction l with
  | nil => simp
  | cons c l ih =>
    rw [List.nodup_cons] at h
    rw [List.map_cons]
    by_cases hv : v = c
    · rw [if_pos hv, indicator_zero_of_not_mem v l (hv ▸ h.1)]
      simp [List.count_cons, List.count_replicate]
    · rw [if_neg hv, List.count_cons_of_ne (by norm_num)]
      exact ih h.2

theorem fitCategories_nodup (xs : List String) :
    (fitCategories xs).Nodup :=
  (List.perm_insertionSort _ _).symm.nodup (List.nodup_dedup xs)

theorem mem_fitCategories (xs : List String) (v : String) :
    v ∈ fitCategories xs ↔ v ∈ xs :=
  (List.perm_insertionSort _ _).mem_iff.trans (List.mem_dedup)

/-- C3: for a categorical column with `k` observed categories the
one-hot block has exactly `k - 1` indicator columns, at most one
indicator is set for any value, and the indicators are all zero for the
dropped reference level (the first fitted category) and for values
unseen at fit time. -/
theorem one_hot_shape (xs : List String) (v : String) :
    ((encodeCat (fitCategories xs) v).length =
        (fitCategories xs).length - 1 ∧
      (fitCategories xs).length = xs.dedup.length ∧
      (encodeCat (fitCategories xs) v).count 1 ≤ 1) ∧
    ((v ∉ xs ∨ (fitCategories xs).head? = some v) →
      encodeCat (fitCategories xs) v =
        List.replicate ((fitCategories xs).length - 1) 0) := by
  have hnd : (fitCategories xs).Nodup := fitCategories_nodup xs
  refine ⟨⟨?_, ?_, ?_⟩, ?_⟩
  · rw [encodeCat, List.length_map, List.length_drop]
  · exact List.length_insertionSort _ _
  · exact indicator_count_le_one v _ (hnd.sublist (List.drop_sublist 1 _))
  · intro hcase
    have hnotmem : v ∉ (fitCategories xs).drop 1 := by
      rcases hcase with hv | hv
      · exact fun hmem => hv ((mem_fitCategories xs v).mp
          ((List.drop_sublist 1 _).subset hmem))
      · cases hcats : fitCategories xs with
        | nil => rw [hcats] at hv; simp at hv
        | cons c rest =>
          rw [hcats] at hv
          simp only [List.head?_cons, Option.some.injEq] at hv
          rw [hcats, List.nodup_cons] at hnd
          rw [List.drop_one, List.tail_cons]
          exact hv ▸ hnd.1
    rw [encodeCat, indicator_zero_of_not_mem v _ hnotmem, List.length_drop]

/-- Witness for C3: fitting on `["b", "a", "b", "c"]` observes three
categories, the encoder keeps two columns, and the reference value
`"a"` encodes to all zeros. -/
theorem one_hot_shape_witness :
    ((encodeCat (fitCategories ["b", "a", "b", "c"]) "a").length =
        (fitCategories ["b", "a", "b", "c"]).length - 1 ∧
      (fitCategories ["b", "a", "b", "c"]).length =
        (["b", "a", "b", "c"] : List String).dedup.length ∧
      (encodeCat (fitCategories ["b", "a", "b", "c"]) "a").count 1 ≤ 1) ∧
    encodeCat (fitCategories ["b", "a", "b", "c"]) "a" =
      List.replicate ((fitCategories ["b", "a", "b", "c"]).length - 1) 0 :=
  ⟨(one_hot_shape ["b", "a", "b", "c"] "a").1,
    (one_hot_shape ["b", "a", "b", "c"] "a").2 (Or.inr (by decide))⟩

/-! ### Min-max scaler lemmas and claim -/

theorem foldl_min_le (l : List ℚ) (a : ℚ) :
    l.foldl min a ≤ a ∧ ∀ x ∈ l, l.foldl min a ≤ x := by
  induction l generalizing a with
  | nil => exact ⟨le_refl a, by simp⟩
  | cons h t ih =>
    refine ⟨le_trans (ih (min a h)).1 (min_le_left a h), fun x hx => ?_⟩
    rcases List.mem_cons.mp hx with rfl | hx
    · exact le_trans (ih (min a x)).1 (min_le_right a x)
    · exact (ih (min a h)).2 x hx

theorem le_foldl_max (l : List ℚ) (a : ℚ) :
    a ≤ l.foldl max a ∧ ∀ x ∈ l, x ≤ l.foldl max a := by
  induction l generalizing a with
  | nil => exact ⟨le_refl a, by simp⟩
  | cons h t ih =>
    refine ⟨le_trans (le_max_left a h) (ih (max a h)).1, fun x hx => ?_⟩
    rcases List.mem_cons.mp hx with rfl | hx
    · exact le_trans (le_max_right a x) (ih (max a x)).1
    · exact (ih (max a h)).2 x hx

theorem minQ_le {l : List ℚ} {x : ℚ} (h : x ∈ l) : minQ l ≤ x := by
  cases l with
  | nil => simp at h
  | cons a t =>
    rcases List.mem_cons.mp h with rfl | hx
    · exact (foldl_min_le t x).1
    · exact (foldl_min_le t a).2 x hx

theorem le_maxQ {l : List ℚ} {x : ℚ} (h : x ∈ l) : x ≤ maxQ l := by
  cases l with
  | nil => simp at h
  | cons a t =>
    rcases List.mem_cons.mp h with rfl | hx
    · exact (le_foldl_max t x).1
    · exact (le_foldl_max t a).2 x hx

/-- C4: every value of the numeric pipeline's output lies in `[0, 1]`
when fit and transform use the same column, as in the notebook's single
fit-then-transform pass. -/
theorem minmax_output_bounded (col : List (Option ℚ)) (y : ℚ)
    (h : y ∈ numericTransform col) : 0 ≤ y ∧ y ≤ 1 := by
  simp only [numericTransform] at h
  obtain ⟨x, hx, rfl⟩ := List.mem_map.mp h
  have hlo : minQ (col.map (imputeCell col)) ≤ x := minQ_le hx
  have hhi : x ≤ maxQ (col.map (imputeCell col)) := le_maxQ hx
  simp only [minMaxScale]
  by_cases hd : maxQ (col.map (imputeCell col)) -
      minQ (col.map (imputeCell col)) = 0
  · rw [if_pos hd]
    have hx0 : x - minQ (col.map (imputeCell col)) = 0 := by linarith
    rw [hx0]
    norm_num
  · rw [if_neg hd]
    have hpos : 0 < maxQ (col.map (imputeCell col)) -
        minQ (col.map (imputeCell col)) :=
      lt_of_le_of_ne (by linarith) (Ne.symm hd)
    constructor
    · exact div_nonneg (by linarith) hpos.le
    · rw [div_le_one hpos]
      linarith

/-- Witness for C4: the column `[some 1, missing, some 3]` is imputed
with median 2 and scaled to `[0, 1/2, 1]`; the middle output is in
`[0, 1]`. -/
theorem minmax_output_bounded_witness :
    0 ≤ (1 / 2 : ℚ) ∧ (1 / 2 : ℚ) ≤ 1 :=
  minmax_output_bounded [some 1, none, some 3] (1 / 2) (by
    have h : numericTransform [some 1, none, some 3] = [0, 1 / 2, 1] := by
      norm_num [numericTransform, imputeCell, medianQ, minMaxScale, minQ,
        maxQ, List.insertionSort, List.orderedInsert, List.filterMap,
        min_def, max_def]
    rw [h]
    norm_num)

/-! ### OLS / Breusch-Pagan claim -/

/-- C2: the fitter uses the feature matrix itself as design matrix (no
intercept column is added), and consequently the Breusch-Pagan test
invoked on that design matrix fails its constant-column precondition
whenever the matrix has no constant column, as on the notebook's data
(the notebook's recorded output shows exactly this error). -/
theorem ols_no_intercept_bp_fails (y resid : List ℚ)
    (X : List (List ℚ)) (h : hasConstColumn X = false) :
    (olsFit y X false).exog = X ∧
    het_breuschpagan resid (olsFit y X false).exog =
      .error bpErrorMessage := by
  refine ⟨rfl, ?_⟩
  show het_breuschpagan resid X = _
  rw [het_breuschpagan, if_neg (by simp [h])]

/-- Witness for C2 on a concrete two-column matrix with no constant
column. -/
theorem ols_no_intercept_bp_fails_witness :
    (olsFit [1, 2] [[0, 1], [1, 0]] false).exog = [[0, 1], [1, 0]] ∧
    het_breuschpagan [0, 0] (olsFit [1, 2] [[0, 1], [1, 0]] false).exog =
      .error bpErrorMessage :=
  ols_no_intercept_bp_fails [1, 2] [0, 0] [[0, 1], [1, 0]] (by decide)

/-! ### Diagnostic-runner lemmas and claims -/

/-- The full printed block of a successful test: title line, one
formatted line per paired statistic, and the trailing newline `print`
appends (the blank-line separator before the next block). -/
def blockText (title : String) (statsNames score : List String) : String :=
  title ++ " test:\n" ++ joinAll ((statsNames.zip score).map statLine) ++ "\n"

theorem foldl_statLines (l : List (String × String)) (init : String) :
    l.foldl (fun text p => text ++ indent ++ p.1 ++ ": " ++ p.2 ++ "\n")
      init = init ++ joinAll (l.map statLine) := by
  induction l generalizing init with
  | nil =>
    show init = init ++ joinAll []
    rw [joinAll, String.append_empty]
  | cons p l ih =>
    show l.foldl _ (init ++ indent ++ p.1 ++ ": " ++ p.2 ++ "\n") = _
    rw [ih, List.map_cons, joinAll, statLine]
    simp only [String.append_assoc]

theorem display_test_ok (title : String) (names score : List String) :
    display_test title names (.ok score) =
      .ok (blockText title names score) := by
  show Except.ok _ = _
  rw [blockText, foldl_statLines]

theorem tryDisplay_ok (title : String) (names score : List String) :
    tryDisplay title names (.ok score) = blockText title names score := by
  rw [tryDisplay, display_test_ok]

theorem tryDisplay_error (title : String) (names : List String)
    (e : String) : tryDisplay title names (.error e) = e ++ "\n" := rfl

/-- C9: a successfully invoked test prints one block: a `<Title> test:`
line, then one four-space-indented `<name>: <value>` line per returned
statistic, followed by the newline `print` appends, which forms the
blank-line separator between consecutive blocks. -/
theorem display_test_block_format (title : String)
    (names score : List String) :
    display_test title names (.ok score) =
      .ok (title ++ " test:\n" ++
        joinAll ((names.zip score).map statLine) ++ "\n") :=
  display_test_ok title names score

/-- C10: the runner pairs returned statistics with declared stat names
positionally via `zip`, printing exactly `min` of the two lengths many
statistic lines; surplus names or statistics are dropped silently and
no length mismatch raises. -/
theorem display_test_zip_min (title : String) (names score : List String) :
    display_test title names (.ok score) =
      .ok (title ++ " test:\n" ++
        joinAll ((names.zip score).map statLine) ++ "\n") ∧
    ((names.zip score).map statLine).length =
      min names.length score.length := by
  refine ⟨display_test_ok title names score, ?_⟩
  rw [List.length_map, List.length_zip]

/-- C1: in the diagnostics run as the notebook performs it — Rainbow
and Jarque-Bera succeeding, Harvey-Collier and Breusch-Pagan failing
their preconditions, the failing invocations being the guarded ones —
each failing test's error message is printed in place of its statistics
block, the run completes (`.ok`), and every remaining test's output
still appears after a failure. -/
theorem runner_catches_failing_tests (rs js : List String)
    (eh eb : String) :
    runDiagnostics (.ok rs) (.error eh) (.ok js) (.error eb) =
      .ok (blockText "Rainbow" rainbowNames rs ++ (eh ++ "\n") ++
        blockText "Jarque-Bera" jarqueBeraNames js ++ (eb ++ "\n")) := by
  simp only [runDiagnostics, display_test_ok, tryDisplay_ok,
    tryDisplay_error]

end Ames
